import Mathlib

/-!
Verification of the FaceGuard verification/registration coordination service.

The development shallowly embeds the stateful parts of
`src/lib/faceRecognitionServer.js` and `src/lib/triggerState.ts`:
effectful inputs (file-system reads, the random id generator, the wall
clock, the external face detector) become explicit parameters, and each
handler becomes a pure function from those inputs and the current state
to a response plus the successor state.
-/

namespace FaceGuard

/-! ## Data model

`UserRecord` mirrors the values stored in `users.json` and in the
`registeredUsers` map: `{ name, descriptor }`, where the descriptor is the
embedding vector (`number[]`), modelled as a list of reals. -/

/-- A face descriptor: a fixed-length embedding vector (`number[]`). -/
abbrev Descriptor := List ℝ

/-- One stored user value: `{ name, descriptor }`. -/
structure UserRecord where
  name : String
  descriptor : Descriptor

/-- One entry of the registry mapping, `userId ↦ UserRecord`.  The JS `Map`
iterates entries in a definite order, so the mapping is an association list. -/
abbrev Entry := String × UserRecord

/-- JS truthiness test used by `if (!name || !image)`: an absent field or an
empty string is falsy. -/
def falsy : Option String → Bool
  | none => true
  | some s => s == ""

/-! ## Debounced trigger gate (`src/lib/triggerState.ts`) -/

/-- `DEBOUNCE_TIME = 3000`, the cooldown in milliseconds. -/
def DEBOUNCE_TIME : ℤ := 3000

/-- The module-level mutable state of `triggerState.ts`: `lastTrigger`,
initially `0`.  Timestamps are integers (milliseconds since the epoch). -/
structure TriggerState where
  lastTrigger : ℤ

/-- The state before any `setTrigger` call: `lastTrigger = 0`. -/
def initialTriggerState : TriggerState := ⟨0⟩

/-- `setTrigger()`: reads the clock (`now`), accepts when
`now - lastTrigger >= DEBOUNCE_TIME`, storing and returning `now`;
otherwise returns the stored timestamp unchanged. -/
def setTrigger (now : ℤ) (st : TriggerState) : ℤ × TriggerState :=
  if DEBOUNCE_TIME ≤ now - st.lastTrigger then (now, ⟨now⟩)
  else (st.lastTrigger, st)

/-- `getTrigger()`: returns the stored timestamp without mutating it. -/
def getTrigger (st : TriggerState) : ℤ := st.lastTrigger

/-! ## Descriptor store: registration (`registerHandler`, lines 159–244)

`existingUsers[userId] = {...}` is JS object-key assignment: an existing key
is overwritten in place, a fresh key is appended. -/

/-- JS object-key assignment on the association list read from `users.json`:
overwrite the value at `id` in place if present, otherwise append. -/
def setKey (l : List Entry) (id : String) (r : UserRecord) : List Entry :=
  match l with
  | [] => [(id, r)]
  | (k, v) :: rest => if k = id then (id, r) :: rest else (k, v) :: setKey rest id r

/-- The three response shapes `registerHandler` can produce before its
catch-all 500 handler: 400 missing fields, 400 no face, or 200 success. -/
inductive RegisterResponse where
  | missingFields
  | noFaceDetected
  | success (id : String) (nm : String)
  deriving DecidableEq

/-- Everything observable after a `registerHandler` run: the HTTP response,
the in-memory `registeredUsers` mapping, the durable `users.json` content
(`none` when the file is missing or unparsable), and the `user_registered`
broadcast `(id, name)` if one was sent. -/
structure RegisterOutcome where
  response : RegisterResponse
  memory : List Entry
  durable : Option (List Entry)
  broadcast : Option (String × String)

/-- `registerHandler` (lines 159–244) with its effects made explicit:
`name`/`image` are the request-body fields, `detection` the external
detector's result on the decoded image, `userId` the value produced by
`Math.random().toString(36).substring(2)`, `fileUsers` the parse of
`users.json` (`none` when missing or unreadable — the catch at line 202
leaves `existingUsers = {}`), `writeOk` whether `fs.writeFileSync`
succeeds (its failure is caught at line 218 and only logged), and
`memory` the current `registeredUsers` map. -/
def registerHandler (name image : Option String) (detection : Option Descriptor)
    (userId : String) (fileUsers : Option (List Entry)) (writeOk : Bool)
    (memory : List Entry) : RegisterOutcome :=
  if falsy name || falsy image then
    ⟨.missingFields, memory, fileUsers, none⟩
  else
    match detection with
    | none => ⟨.noFaceDetected, memory, fileUsers, none⟩
    | some desc =>
      let existing := fileUsers.getD []
      let newUsers := setKey existing userId ⟨name.getD "", desc⟩
      ⟨.success userId (name.getD ""), newUsers,
       if writeOk then some newUsers else fileUsers,
       some (userId, name.getD "")⟩

/-! ## Descriptor store: startup load (`initializeFaceAPI`, lines 110–133) -/

/-- The possible states of `users.json` as seen by the load sequence:
missing, present but unreadable (`readFileSync` throws), present with
whitespace-only content, present with content `JSON.parse` rejects, or
well-formed holding a user mapping. -/
inductive DurableFile where
  | missing
  | unreadable
  | emptyContent
  | malformed
  | wellFormed (users : List Entry)

/-- The state after the load sequence: the in-memory `registeredUsers`
mapping and the durable `users.json` content. -/
structure LoadResult where
  memory : List Entry
  durable : List Entry

/-- The body of the inner `try` (lines 110–127): reads and parses
`users.json`, writing `'{}'` for a missing file or blank content; an
`Except.error` stands for a thrown exception (unreadable file or a
`JSON.parse` failure). -/
def tryLoadBody : DurableFile → Except Unit LoadResult
  | .missing => .ok ⟨[], []⟩
  | .unreadable => .error ()
  | .emptyContent => .ok ⟨[], []⟩
  | .malformed => .error ()
  | .wellFormed us => .ok ⟨us, us⟩

/-- The full load sequence with its `catch` (lines 128–133): any exception
from the body resets `registeredUsers` to empty and rewrites `users.json`
as `'{}'`; no error propagates to the caller. -/
def loadUsers (f : DurableFile) : LoadResult :=
  match tryLoadBody f with
  | .ok r => r
  | .error _ => ⟨[], []⟩

/-! ## Store helper lemmas -/

theorem setKey_length_of_not_mem (l : List Entry) (id : String) (r : UserRecord)
    (h : id ∉ l.map Prod.fst) : (setKey l id r).length = l.length + 1 := by
  induction l with
  | nil => rfl
  | cons a rest ih =>
    obtain ⟨k, v⟩ := a
    simp only [List.map_cons, List.mem_cons] at h
    push_neg at h
    have hk : ¬ k = id := fun hk => h.1 hk.symm
    simp only [setKey, if_neg hk, List.length_cons, ih h.2]

theorem setKey_mem_self (l : List Entry) (id : String) (r : UserRecord) :
    (id, r) ∈ setKey l id r := by
  induction l with
  | nil => simp [setKey]
  | cons a rest ih =>
    by_cases hk : a.1 = id
    · simp [setKey, hk]
    · simp only [setKey, if_neg hk, List.mem_cons]
      exact Or.inr ih

/-! ## Matcher and verification workflow (`recognizeHandler`, lines 249–346) -/

/-- `faceapi.euclideanDistance`: the Euclidean distance between two
descriptor vectors, the square root of the sum of squared coordinate
differences. -/
noncomputable def euclideanDistance (a b : Descriptor) : ℝ :=
  Real.sqrt (((a.zip b).map (fun p => (p.1 - p.2) ^ 2)).sum)

/-- Distance from the probe descriptor to one registry entry's stored
descriptor, as computed inside the scan loop (line 293). -/
noncomputable def distTo (probe : Descriptor) (e : Entry) : ℝ :=
  euclideanDistance probe e.2.descriptor

/-- One iteration of the scan loop (lines 292–302).  The accumulator is
`none` for the initial `minDistance = Infinity, matchedUser = null` pair,
and `some (minDistance, matchedUser)` afterwards; the update fires only
on a strict decrease (`distance < minDistance`). -/
noncomputable def scanStep (probe : Descriptor) (st : Option (ℝ × Entry)) (e : Entry) :
    Option (ℝ × Entry) :=
  let d := distTo probe e
  match st with
  | none => some (d, e)
  | some (m, u) => if d < m then some (d, e) else some (m, u)

/-- The whole scan loop over `registeredUsers.entries()` in iteration
order. -/
noncomputable def scanUsers (probe : Descriptor) (users : List Entry) : Option (ℝ × Entry) :=
  users.foldl (scanStep probe) none

/-- `RECOGNITION_THRESHOLD = 0.45` (line 304). -/
noncomputable def RECOGNITION_THRESHOLD : ℝ := 0.45

/-- The response shapes `recognizeHandler` can produce before its catch-all
500 handler: 400 missing image, 400 no face, 400 empty registry, or a 200
with either an accepted match or a rejection. -/
inductive RecognizeResponse where
  | missingImage
  | noFace
  | emptyRegistry
  | accepted (id : String) (nm : String) (confidence : ℝ)
  | rejected (confidence : ℝ)

/-- One `access_attempt` WebSocket event: its `success` flag and message. -/
structure AccessEvent where
  success : Bool
  message : String

/-- Everything observable after a `recognizeHandler` run: the HTTP response
and the `access_attempt` broadcast, if one was sent. -/
structure RecognizeOutcome where
  response : RecognizeResponse
  broadcast : Option AccessEvent

/-- `recognizeHandler` (lines 249–346) with its effects made explicit:
`image` is the request-body field, `detection` the external detector's
result on the decoded image, and `users` the current `registeredUsers`
mapping in iteration order.  After the scan, the match is accepted iff
`minDistance <= RECOGNITION_THRESHOLD && matchedUser`, with confidence
`1 - minDistance / RECOGNITION_THRESHOLD`; otherwise the rejection
carries confidence `minDistance > 1 ? 0 : 1 - minDistance`. -/
noncomputable def recognizeHandler (image : Option String) (detection : Option Descriptor)
    (users : List Entry) : RecognizeOutcome :=
  if falsy image then
    ⟨.missingImage, none⟩
  else
    match detection with
    | none => ⟨.noFace, none⟩
    | some probe =>
      if users.length = 0 then
        ⟨.emptyRegistry, none⟩
      else
        match scanUsers probe users with
        | some (m, matched) =>
          if m ≤ RECOGNITION_THRESHOLD then
            ⟨.accepted matched.1 matched.2.name (1 - m / RECOGNITION_THRESHOLD),
             some ⟨true, "Access granted to " ++ matched.2.name⟩⟩
          else
            ⟨.rejected (if 1 < m then 0 else 1 - m),
             some ⟨false, "Access denied: Face not recognized"⟩⟩
        | none =>
          ⟨.rejected 0, some ⟨false, "Access denied: Face not recognized"⟩⟩

/-- The confidence field of a response, when it carries one. -/
def confidenceOf : RecognizeResponse → Option ℝ
  | .accepted _ _ c => some c
  | .rejected c => some c
  | _ => none

/-- The minimum of the distances from the probe to the stored descriptors,
in the mathematical sense (`0` on an empty registry, where no distance
exists). -/
noncomputable def minimumDistance (probe : Descriptor) : List Entry → ℝ
  | [] => 0
  | e :: rest => (rest.map (distTo probe)).foldl min (distTo probe e)

/-! ## Matcher lemmas -/

theorem euclideanDistance_nonneg (a b : Descriptor) : 0 ≤ euclideanDistance a b :=
  Real.sqrt_nonneg _

theorem distTo_nonneg (probe : Descriptor) (e : Entry) : 0 ≤ distTo probe e :=
  euclideanDistance_nonneg _ _

theorem euclideanDistance_self (a : Descriptor) : euclideanDistance a a = 0 := by
  have h : ((a.zip a).map (fun p => (p.1 - p.2) ^ 2)).sum = 0 := by
    induction a with
    | nil => simp
    | cons x xs ih => simp [ih]
  simp [euclideanDistance, h]

/-- Running the scan loop from an already-set accumulator `(m, u)` either
leaves it untouched (no candidate strictly beats `m`) or lands on the first
candidate attaining the minimum distance of the remaining list, which also
strictly beats `m`. -/
theorem scan_foldl_characterization (probe : Descriptor) (l : List Entry) :
    ∀ (m : ℝ) (u : Entry),
    (List.foldl (scanStep probe) (some (m, u)) l = some (m, u) ∧
      ∀ e ∈ l, m ≤ distTo probe e) ∨
    (∃ i : Fin l.length,
      List.foldl (scanStep probe) (some (m, u)) l
        = some (distTo probe (l.get i), l.get i) ∧
      distTo probe (l.get i) < m ∧
      (∀ j : Fin l.length, distTo probe (l.get i) ≤ distTo probe (l.get j)) ∧
      (∀ j : Fin l.length, j.val < i.val →
        distTo probe (l.get i) < distTo probe (l.get j))) := by
  induction l with
  | nil =>
    intro m u
    exact Or.inl ⟨rfl, by intro e he; cases he⟩
  | cons a rest ih =>
    intro m u
    rw [List.foldl_cons]
    by_cases hd : distTo probe a < m
    · have hstep : scanStep probe (some (m, u)) a = some (distTo probe a, a) := by
        simp [scanStep, hd]
      rw [hstep]
      rcases ih (distTo probe a) a with ⟨hfold, hall⟩ | ⟨i, hfold, hlt, hmin, hfirst⟩
      · refine Or.inr ⟨⟨0, Nat.succ_pos _⟩, hfold, hd, ?_, ?_⟩
        · intro j
          rcases j with ⟨jv, hj⟩
          cases jv with
          | zero => exact le_refl _
          | succ n => exact hall _ (List.get_mem rest n (Nat.lt_of_succ_lt_succ hj))
        · intro j hj
          exact absurd hj (Nat.not_lt_zero _)
      · refine Or.inr ⟨⟨i.val + 1, Nat.succ_lt_succ i.isLt⟩, hfold,
          lt_trans hlt hd, ?_, ?_⟩
        · intro j
          rcases j with ⟨jv, hj⟩
          cases jv with
          | zero => exact le_of_lt hlt
          | succ n => exact hmin ⟨n, Nat.lt_of_succ_lt_succ hj⟩
        · intro j hj
          rcases j with ⟨jv, hj2⟩
          cases jv with
          | zero => exact hlt
          | succ n =>
            exact hfirst ⟨n, Nat.lt_of_succ_lt_succ hj2⟩ (Nat.lt_of_succ_lt_succ hj)
    · have hstep : scanStep probe (some (m, u)) a = some (m, u) := by
        simp [scanStep, hd]
      rw [hstep]
      rcases ih m u with ⟨hfold, hall⟩ | ⟨i, hfold, hlt, hmin, hfirst⟩
      · refine Or.inl ⟨hfold, ?_⟩
        intro e he
        rcases List.mem_cons.mp he with h | h
        · subst h; exact not_lt.mp hd
        · exact hall e h
      · refine Or.inr ⟨⟨i.val + 1, Nat.succ_lt_succ i.isLt⟩, hfold, hlt, ?_, ?_⟩
        · intro j
          rcases j with ⟨jv, hj⟩
          cases jv with
          | zero => exact le_of_lt (lt_of_lt_of_le hlt (not_lt.mp hd))
          | succ n => exact hmin ⟨n, Nat.lt_of_succ_lt_succ hj⟩
        · intro j hj
          rcases j with ⟨jv, hj2⟩
          cases jv with
          | zero => exact lt_of_lt_of_le hlt (not_lt.mp hd)
          | succ n =>
            exact hfirst ⟨n, Nat.lt_of_succ_lt_succ hj2⟩ (Nat.lt_of_succ_lt_succ hj)

/-- The scan over a non-empty registry lands on the first entry attaining
the minimum distance. -/
theorem scanUsers_spec (probe : Descriptor) (l : List Entry) (h : l ≠ []) :
    ∃ i : Fin l.length,
      scanUsers probe l = some (distTo probe (l.get i), l.get i) ∧
      (∀ j : Fin l.length, distTo probe (l.get i) ≤ distTo probe (l.get j)) ∧
      (∀ j : Fin l.length, j.val < i.val →
        distTo probe (l.get i) < distTo probe (l.get j)) := by
  match l with
  | [] => exact absurd rfl h
  | a :: rest =>
    have hstart : scanUsers probe (a :: rest)
        = List.foldl (scanStep probe) (some (distTo probe a, a)) rest := by
      simp [scanUsers, List.foldl_cons, scanStep]
    rcases scan_foldl_characterization probe rest (distTo probe a) a with
      ⟨hfold, hall⟩ | ⟨i, hfold, hlt, hmin, hfirst⟩
    · refine ⟨⟨0, Nat.succ_pos _⟩, by rw [hstart]; exact hfold, ?_, ?_⟩
      · intro j
        rcases j with ⟨jv, hj⟩
        cases jv with
        | zero => exact le_refl _
        | succ n => exact hall _ (List.get_mem rest n (Nat.lt_of_succ_lt_succ hj))
      · intro j hj
        exact absurd hj (Nat.not_lt_zero _)
    · refine ⟨⟨i.val + 1, Nat.succ_lt_succ i.isLt⟩, by rw [hstart]; exact hfold, ?_, ?_⟩
      · intro j
        rcases j with ⟨jv, hj⟩
        cases jv with
        | zero => exact le_of_lt hlt
        | succ n => exact hmin ⟨n, Nat.lt_of_succ_lt_succ hj⟩
      · intro j hj
        rcases j with ⟨jv, hj2⟩
        cases jv with
        | zero => exact hlt
        | succ n =>
          exact hfirst ⟨n, Nat.lt_of_succ_lt_succ hj2⟩ (Nat.lt_of_succ_lt_succ hj)

theorem foldl_min_le (l : List ℝ) : ∀ a : ℝ,
    l.foldl min a ≤ a ∧ ∀ x ∈ l, l.foldl min a ≤ x := by
  induction l with
  | nil => intro a; exact ⟨le_refl a, by intro x hx; cases hx⟩
  | cons y ys ih =>
    intro a
    rw [List.foldl_cons]
    refine ⟨(ih (min a y)).1.trans (min_le_left a y), ?_⟩
    intro x hx
    rcases List.mem_cons.mp hx with h | h
    · exact h.symm ▸ (ih (min a y)).1.trans (min_le_right a y)
    · exact (ih (min a y)).2 x h

theorem foldl_min_mem (l : List ℝ) : ∀ a : ℝ,
    l.foldl min a = a ∨ l.foldl min a ∈ l := by
  induction l with
  | nil => intro a; exact Or.inl rfl
  | cons y ys ih =>
    intro a
    rw [List.foldl_cons]
    rcases ih (min a y) with h | h
    · rw [h]
      rcases min_cases a y with ⟨h2, _⟩ | ⟨h2, _⟩
      · exact Or.inl h2
      · rw [h2]; exact Or.inr (List.mem_cons_self y ys)
    · exact Or.inr (List.mem_cons_of_mem y h)

theorem minimumDistance_le (probe : Descriptor) (l : List Entry) (e : Entry)
    (he : e ∈ l) : minimumDistance probe l ≤ distTo probe e := by
  match l with
  | [] => cases he
  | a :: rest =>
    simp only [minimumDistance]
    rcases List.mem_cons.mp he with h | h
    · subst h; exact (foldl_min_le _ _).1
    · exact (foldl_min_le _ _).2 _ (List.mem_map_of_mem (distTo probe) h)

theorem minimumDistance_attained (probe : Descriptor) (l : List Entry) (h : l ≠ []) :
    ∃ e ∈ l, distTo probe e = minimumDistance probe l := by
  match l with
  | [] => exact absurd rfl h
  | a :: rest =>
    simp only [minimumDistance]
    rcases foldl_min_mem (rest.map (distTo probe)) (distTo probe a) with h2 | h2
    · exact ⟨a, List.mem_cons_self a rest, h2.symm⟩
    · rcases List.mem_map.mp h2 with ⟨e, he, heq⟩
      exact ⟨e, List.mem_cons_of_mem a he, heq⟩

/-- On a non-empty registry the scan's accumulated `minDistance` is exactly
the minimum of the probe-to-entry distances, and the matched entry is the
first one attaining it. -/
theorem scanUsers_eq_minimum (probe : Descriptor) (l : List Entry) (h : l ≠ []) :
    ∃ i : Fin l.length,
      scanUsers probe l = some (minimumDistance probe l, l.get i) ∧
      distTo probe (l.get i) = minimumDistance probe l ∧
      (∀ j : Fin l.length, j.val < i.val →
        minimumDistance probe l < distTo probe (l.get j)) := by
  obtain ⟨i, hscan, hmin, hfirst⟩ := scanUsers_spec probe l h
  have heq : distTo probe (l.get i) = minimumDistance probe l := by
    apply le_antisymm
    · obtain ⟨e, he, hee⟩ := minimumDistance_attained probe l h
      obtain ⟨j, hj⟩ := List.mem_iff_get.mp he
      calc distTo probe (l.get i) ≤ distTo probe (l.get j) := hmin j
        _ = minimumDistance probe l := by rw [hj, hee]
    · exact minimumDistance_le probe l (l.get i) (List.get_mem l i.val i.isLt)
  refine ⟨i, by rw [hscan, heq], heq, ?_⟩
  intro j hj
  rw [← heq]
  exact hfirst j hj

theorem minimumDistance_nonneg (probe : Descriptor) (l : List Entry) (h : l ≠ []) :
    0 ≤ minimumDistance probe l := by
  obtain ⟨e, _, hee⟩ := minimumDistance_attained probe l h
  rw [← hee]
  exact distTo_nonneg probe e

/-! ## Handler unfolding lemmas -/

theorem RECOGNITION_THRESHOLD_pos : (0 : ℝ) < RECOGNITION_THRESHOLD := by
  norm_num [RECOGNITION_THRESHOLD]

/-- `recognizeHandler` on a detected face and a non-empty registry reduces
to the post-scan accept/reject decision. -/
theorem recognizeHandler_eq_scan (image : Option String) (himg : falsy image = false)
    (probe : Descriptor) (users : List Entry) (hne : users ≠ [])
    (m : ℝ) (matched : Entry) (hscan : scanUsers probe users = some (m, matched)) :
    recognizeHandler image (some probe) users =
      if m ≤ RECOGNITION_THRESHOLD then
        ⟨.accepted matched.1 matched.2.name (1 - m / RECOGNITION_THRESHOLD),
         some ⟨true, "Access granted to " ++ matched.2.name⟩⟩
      else
        ⟨.rejected (if 1 < m then 0 else 1 - m),
         some ⟨false, "Access denied: Face not recognized"⟩⟩ := by
  have hlen : users.length ≠ 0 := by
    intro h0
    exact hne (List.length_eq_zero.mp h0)
  simp [recognizeHandler, himg, hlen, hscan]

theorem recognizeHandler_response_eq (image : Option String) (himg : falsy image = false)
    (probe : Descriptor) (users : List Entry) (hne : users ≠ [])
    (m : ℝ) (matched : Entry) (hscan : scanUsers probe users = some (m, matched)) :
    (recognizeHandler image (some probe) users).response =
      if m ≤ RECOGNITION_THRESHOLD then
        .accepted matched.1 matched.2.name (1 - m / RECOGNITION_THRESHOLD)
      else
        .rejected (if 1 < m then 0 else 1 - m) := by
  rw [recognizeHandler_eq_scan image himg probe users hne m matched hscan,
    apply_ite RecognizeOutcome.response]

theorem recognizeHandler_broadcast_eq (image : Option String) (himg : falsy image = false)
    (probe : Descriptor) (users : List Entry) (hne : users ≠ [])
    (m : ℝ) (matched : Entry) (hscan : scanUsers probe users = some (m, matched)) :
    (recognizeHandler image (some probe) users).broadcast =
      if m ≤ RECOGNITION_THRESHOLD then
        some ⟨true, "Access granted to " ++ matched.2.name⟩
      else
        some ⟨false, "Access denied: Face not recognized"⟩ := by
  rw [recognizeHandler_eq_scan image himg probe users hne m matched hscan,
    apply_ite RecognizeOutcome.broadcast]

/-- A registration that passes validation and face detection always reaches
the success return, mutating the mapping via object-key assignment. -/
theorem registerHandler_success_eq (nm img : String) (hn : nm ≠ "") (hi : img ≠ "")
    (desc : Descriptor) (userId : String) (fileUsers : Option (List Entry))
    (writeOk : Bool) (memory : List Entry) :
    registerHandler (some nm) (some img) (some desc) userId fileUsers writeOk memory =
      ⟨.success userId nm, setKey (fileUsers.getD []) userId ⟨nm, desc⟩,
       if writeOk then some (setKey (fileUsers.getD []) userId ⟨nm, desc⟩) else fileUsers,
       some (userId, nm)⟩ := by
  have hfn : falsy (some nm) = false := beq_eq_false_iff_ne.mpr hn
  have hfi : falsy (some img) = false := beq_eq_false_iff_ne.mpr hi
  simp [registerHandler, hfn, hfi]

/-! ## Concrete sample data for witnesses -/

/-- Sample stored user: Alice with the zero descriptor. -/
noncomputable def aliceRec : UserRecord := ⟨"Alice", [0]⟩

/-- Sample stored user: Bob with the zero descriptor (used to exercise
distance ties). -/
noncomputable def bobRec : UserRecord := ⟨"Bob", [0]⟩

theorem scan_single_self :
    scanUsers [(0 : ℝ)] [("a", aliceRec)] = some (0, ("a", aliceRec)) := by
  simp [scanUsers, scanStep, distTo, aliceRec, euclideanDistance_self]

theorem minimumDistance_single_self :
    minimumDistance [(0 : ℝ)] [("a", aliceRec)] = 0 := by
  simp [minimumDistance, distTo, aliceRec, euclideanDistance_self]

theorem recognize_demo_eval :
    recognizeHandler (some "img") (some [(0 : ℝ)]) [("a", aliceRec)]
      = ⟨.accepted "a" "Alice" 1, some ⟨true, "Access granted to Alice"⟩⟩ := by
  have himg : falsy (some "img") = false := by decide
  rw [recognizeHandler_eq_scan (some "img") himg [(0 : ℝ)] [("a", aliceRec)]
      (by simp) 0 ("a", aliceRec) scan_single_self,
    if_pos (le_of_lt RECOGNITION_THRESHOLD_pos)]
  norm_num [aliceRec]
  decide

/-! ## Claim theorems -/

/-- Claim C6: after an accepted `fire()` at time `t1`, a second call
strictly inside the 3000 ms cooldown window returns the same timestamp
`t1` and leaves the stored timestamp unchanged, while a call at elapsed
time at least the cooldown is accepted, returns a strictly greater
timestamp, and advances the stored value. -/
theorem C6_trigger_debounce (st : TriggerState) (t1 t2 : ℤ)
    (h1 : DEBOUNCE_TIME ≤ t1 - st.lastTrigger) :
    (setTrigger t1 st).1 = t1 ∧
    (t2 - t1 < DEBOUNCE_TIME →
      setTrigger t2 (setTrigger t1 st).2 = (t1, (setTrigger t1 st).2)) ∧
    (DEBOUNCE_TIME ≤ t2 - t1 →
      (setTrigger t2 (setTrigger t1 st).2).1 = t2 ∧
      t1 < (setTrigger t2 (setTrigger t1 st).2).1 ∧
      (setTrigger t2 (setTrigger t1 st).2).2.lastTrigger = t2) := by
  have hset : setTrigger t1 st = (t1, ⟨t1⟩) := by
    simp [setTrigger, h1]
  rw [hset]
  refine ⟨rfl, ?_, ?_⟩
  · intro h2
    have hrej : ¬ DEBOUNCE_TIME ≤ t2 - (⟨t1⟩ : TriggerState).lastTrigger := not_le.mpr h2
    simp [setTrigger, hrej]
  · intro h2
    have hacc : DEBOUNCE_TIME ≤ t2 - (⟨t1⟩ : TriggerState).lastTrigger := h2
    have hpos : (0 : ℤ) < DEBOUNCE_TIME := by norm_num [DEBOUNCE_TIME]
    have hlt : t1 < t2 := by
      have h3 : DEBOUNCE_TIME ≤ t2 - t1 := h2
      linarith
    simp [setTrigger, hacc, hlt]

theorem C6_trigger_debounce_witness :
    setTrigger 5500 (setTrigger 5000 initialTriggerState).2
        = (5000, (setTrigger 5000 initialTriggerState).2) ∧
    (setTrigger 9000 (setTrigger 5000 initialTriggerState).2).1 = 9000 ∧
    (setTrigger 9000 (setTrigger 5000 initialTriggerState).2).2.lastTrigger = 9000 := by
  have h1 := C6_trigger_debounce initialTriggerState 5000 5500
    (by norm_num [DEBOUNCE_TIME, initialTriggerState])
  have h2 := C6_trigger_debounce initialTriggerState 5000 9000
    (by norm_num [DEBOUNCE_TIME, initialTriggerState])
  exact ⟨h1.2.1 (by norm_num [DEBOUNCE_TIME]),
    (h2.2.2 (by norm_num [DEBOUNCE_TIME])).1,
    (h2.2.2 (by norm_num [DEBOUNCE_TIME])).2.2⟩

/-- Claim C10: the stored trigger timestamp starts at 0, so `getTrigger`
initially returns 0; and the value returned by any `setTrigger` call,
accepted or rejected, equals the stored timestamp afterwards, so an
immediately following `getTrigger` returns exactly that value. -/
theorem C10_trigger_timestamp_invariant :
    getTrigger initialTriggerState = 0 ∧
    ∀ (now : ℤ) (st : TriggerState),
      (setTrigger now st).1 = getTrigger (setTrigger now st).2 := by
  refine ⟨rfl, ?_⟩
  intro now st
  by_cases h : DEBOUNCE_TIME ≤ now - st.lastTrigger
  · simp [setTrigger, getTrigger, h]
  · simp [setTrigger, getTrigger, h]

/-- Claim C7: on startup load, a missing durable file yields an empty
in-memory mapping and an empty durable record, blank content likewise, and
every read or parse exception from the body (unreadable file, malformed
content) is caught, resetting both the mapping and the durable state to
empty instead of propagating a fatal error to the caller. -/
theorem C7_load_error_recovery :
    loadUsers .missing = ⟨[], []⟩ ∧
    loadUsers .emptyContent = ⟨[], []⟩ ∧
    (∀ f : DurableFile, tryLoadBody f = .error () → loadUsers f = ⟨[], []⟩) := by
  refine ⟨rfl, rfl, ?_⟩
  intro f hf
  simp [loadUsers, hf]

theorem C7_load_error_recovery_witness :
    loadUsers .malformed = ⟨[], []⟩ ∧ loadUsers .unreadable = ⟨[], []⟩ :=
  ⟨C7_load_error_recovery.2.2 .malformed rfl,
   C7_load_error_recovery.2.2 .unreadable rfl⟩

/-- Claim C3: a verify call with a detected face but an empty registry
produces the distinct empty-registry failure — no scan result exists, no
broadcast is sent, and neither an accepted nor a rejected match is
returned. -/
theorem C3_empty_registry_error (image : Option String) (himg : falsy image = false)
    (probe : Descriptor) :
    recognizeHandler image (some probe) [] = ⟨.emptyRegistry, none⟩ ∧
    scanUsers probe [] = none := by
  refine ⟨?_, rfl⟩
  simp [recognizeHandler, himg]

theorem C3_empty_registry_error_witness :
    recognizeHandler (some "img") (some [(0 : ℝ)]) [] = ⟨.emptyRegistry, none⟩ :=
  (C3_empty_registry_error (some "img") (by decide) [(0 : ℝ)]).1

/-- Claim C5: on a non-empty candidate list the scan returns the candidate
at minimum Euclidean distance from the probe, and among candidates tied at
the minimum the first in iteration order wins (every earlier candidate is
strictly farther); on an empty candidate list the loop yields no match and
no distance. -/
theorem C5_matcher_first_minimum (probe : Descriptor) (users : List Entry) :
    (users = [] → scanUsers probe users = none) ∧
    (users ≠ [] → ∃ i : Fin users.length,
      scanUsers probe users = some (minimumDistance probe users, users.get i) ∧
      distTo probe (users.get i) = minimumDistance probe users ∧
      (∀ j : Fin users.length,
        minimumDistance probe users ≤ distTo probe (users.get j)) ∧
      (∀ j : Fin users.length, j.val < i.val →
        minimumDistance probe users < distTo probe (users.get j))) := by
  constructor
  · intro h; subst h; rfl
  · intro hne
    obtain ⟨i, hscan, hdist, hfirst⟩ := scanUsers_eq_minimum probe users hne
    refine ⟨i, hscan, hdist, ?_, hfirst⟩
    intro j
    exact minimumDistance_le probe users _ (List.get_mem users j.val j.isLt)

theorem C5_matcher_first_minimum_witness :
    scanUsers [(0 : ℝ)] [("a", aliceRec), ("b", bobRec)] = some (0, ("a", aliceRec)) := by
  have hmin : minimumDistance [(0 : ℝ)] [("a", aliceRec), ("b", bobRec)] = 0 := by
    simp [minimumDistance, distTo, aliceRec, bobRec, euclideanDistance_self]
  have ha : distTo [(0 : ℝ)] ("a", aliceRec) = 0 := by
    simp [distTo, aliceRec, euclideanDistance_self]
  obtain ⟨i, hscan, hdist, hle, hfirst⟩ :=
    (C5_matcher_first_minimum [(0 : ℝ)] [("a", aliceRec), ("b", bobRec)]).2 (by simp)
  rcases i with ⟨iv, hiv⟩
  have hiv2 : iv = 0 ∨ iv = 1 := by
    have hlt : iv < 2 := by simpa using hiv
    omega
  rcases hiv2 with rfl | rfl
  · rw [hscan, hmin]
    rfl
  · exfalso
    have hcontra := hfirst ⟨0, by norm_num⟩ (by norm_num)
    rw [hmin] at hcontra
    have hget : (([("a", aliceRec), ("b", bobRec)] : List Entry).get ⟨0, by norm_num⟩)
        = ("a", aliceRec) := rfl
    rw [hget, ha] at hcontra
    exact lt_irrefl 0 hcontra

/-- Claim C2: with a face detected and a non-empty registry, the verify
outcome is accepted — success response naming the matched user with a
success `access_attempt` broadcast — if and only if the minimum Euclidean
distance over all stored descriptors is at most the fixed threshold 0.45;
otherwise it is rejected. -/
theorem C2_accept_iff_min_le_threshold (image : Option String)
    (himg : falsy image = false) (probe : Descriptor) (users : List Entry)
    (hne : users ≠ []) :
    ((∃ uid nm conf, (recognizeHandler image (some probe) users).response
        = .accepted uid nm conf) ↔
      minimumDistance probe users ≤ RECOGNITION_THRESHOLD) ∧
    ((∃ ev, (recognizeHandler image (some probe) users).broadcast = some ev ∧
        ev.success = true) ↔
      minimumDistance probe users ≤ RECOGNITION_THRESHOLD) ∧
    (RECOGNITION_THRESHOLD < minimumDistance probe users →
      ∃ conf, (recognizeHandler image (some probe) users).response
        = .rejected conf) := by
  obtain ⟨i, hscan, hdist, hfirst⟩ := scanUsers_eq_minimum probe users hne
  have hresp := recognizeHandler_response_eq image himg probe users hne _ _ hscan
  have hbc := recognizeHandler_broadcast_eq image himg probe users hne _ _ hscan
  by_cases hthr : minimumDistance probe users ≤ RECOGNITION_THRESHOLD
  · rw [if_pos hthr] at hresp hbc
    exact ⟨⟨fun _ => hthr, fun _ => ⟨_, _, _, hresp⟩⟩,
      ⟨fun _ => hthr, fun _ => ⟨_, hbc, rfl⟩⟩,
      fun hgt => absurd hgt (not_lt.mpr hthr)⟩
  · rw [if_neg hthr] at hresp hbc
    refine ⟨⟨?_, fun hle => absurd hle hthr⟩, ⟨?_, fun hle => absurd hle hthr⟩,
      fun _ => ⟨_, hresp⟩⟩
    · rintro ⟨uid, nm, conf, hacc⟩
      rw [hresp] at hacc
      exact absurd hacc (by simp)
    · rintro ⟨ev, hev, hsucc⟩
      rw [hbc] at hev
      obtain rfl := Option.some.inj hev
      simp at hsucc

theorem C2_accept_iff_min_le_threshold_witness :
    (∃ uid nm conf,
      (recognizeHandler (some "img") (some [(0 : ℝ)]) [("a", aliceRec)]).response
        = .accepted uid nm conf) ∧
    (∃ ev, (recognizeHandler (some "img") (some [(0 : ℝ)]) [("a", aliceRec)]).broadcast
        = some ev ∧ ev.success = true) := by
  have h := C2_accept_iff_min_le_threshold (some "img") (by decide) [(0 : ℝ)]
    [("a", aliceRec)] (by simp)
  have hm : minimumDistance [(0 : ℝ)] [("a", aliceRec)] ≤ RECOGNITION_THRESHOLD := by
    rw [minimumDistance_single_self]
    exact le_of_lt RECOGNITION_THRESHOLD_pos
  exact ⟨h.1.mpr hm, h.2.1.mpr hm⟩

/-- Claim C4: when the match is accepted the returned confidence equals
`1 - minDistance / threshold` — in particular a probe identical to a
stored descriptor (distance 0) is accepted with confidence exactly 1 —
and when rejected it equals 0 if `minDistance > 1` and `1 - minDistance`
otherwise. -/
theorem C4_confidence_formula (image : Option String) (himg : falsy image = false)
    (probe : Descriptor) (users : List Entry) (hne : users ≠ []) :
    (∀ uid nm conf, (recognizeHandler image (some probe) users).response
        = .accepted uid nm conf →
      conf = 1 - minimumDistance probe users / RECOGNITION_THRESHOLD) ∧
    (∀ conf, (recognizeHandler image (some probe) users).response = .rejected conf →
      conf = if 1 < minimumDistance probe users then 0
        else 1 - minimumDistance probe users) ∧
    ((∃ e ∈ users, e.2.descriptor = probe) →
      ∃ uid nm, (recognizeHandler image (some probe) users).response
        = .accepted uid nm 1) := by
  obtain ⟨i, hscan, hdist, hfirst⟩ := scanUsers_eq_minimum probe users hne
  have hresp := recognizeHandler_response_eq image himg probe users hne _ _ hscan
  refine ⟨?_, ?_, ?_⟩
  · intro uid nm conf hacc
    rw [hresp] at hacc
    by_cases hthr : minimumDistance probe users ≤ RECOGNITION_THRESHOLD
    · rw [if_pos hthr] at hacc
      simp only [RecognizeResponse.accepted.injEq] at hacc
      exact hacc.2.2.symm
    · rw [if_neg hthr] at hacc
      exact absurd hacc (by simp)
  · intro conf hrej
    rw [hresp] at hrej
    by_cases hthr : minimumDistance probe users ≤ RECOGNITION_THRESHOLD
    · rw [if_pos hthr] at hrej
      exact absurd hrej (by simp)
    · rw [if_neg hthr] at hrej
      simp only [RecognizeResponse.rejected.injEq] at hrej
      exact hrej.symm
  · rintro ⟨e, he, hdesc⟩
    have h0 : minimumDistance probe users = 0 := by
      refine le_antisymm ?_ (minimumDistance_nonneg probe users hne)
      have hle := minimumDistance_le probe users e he
      rw [distTo, hdesc, euclideanDistance_self] at hle
      exact hle
    have hthr : minimumDistance probe users ≤ RECOGNITION_THRESHOLD := by
      rw [h0]
      exact le_of_lt RECOGNITION_THRESHOLD_pos
    refine ⟨(users.get i).1, (users.get i).2.name, ?_⟩
    rw [hresp, if_pos hthr, h0]
    norm_num

theorem C4_confidence_formula_witness :
    ∃ uid nm, (recognizeHandler (some "img") (some [(0 : ℝ)]) [("a", aliceRec)]).response
      = .accepted uid nm 1 :=
  (C4_confidence_formula (some "img") (by decide) [(0 : ℝ)] [("a", aliceRec)]
    (by simp)).2.2 ⟨("a", aliceRec), by simp, by simp [aliceRec]⟩

/-- Claim C9: whenever a verify call reaches a decision and returns a
confidence — accepted or rejected — that confidence lies in `[0, 1]`. -/
theorem C9_confidence_bounded (image : Option String) (detection : Option Descriptor)
    (users : List Entry) (c : ℝ)
    (h : confidenceOf (recognizeHandler image detection users).response = some c) :
    0 ≤ c ∧ c ≤ 1 := by
  by_cases himg : falsy image = true
  · simp [recognizeHandler, himg, confidenceOf] at h
  · have himg2 : falsy image = false := by
      cases hfi : falsy image
      · rfl
      · exact absurd hfi himg
    cases detection with
    | none => simp [recognizeHandler, himg2, confidenceOf] at h
    | some probe =>
      cases users with
      | nil => simp [recognizeHandler, himg2, confidenceOf] at h
      | cons a rest =>
        have hne : a :: rest ≠ [] := List.cons_ne_nil a rest
        obtain ⟨i, hscan, hdist, hfirst⟩ := scanUsers_eq_minimum probe (a :: rest) hne
        have hresp := recognizeHandler_response_eq image himg2 probe (a :: rest) hne _ _ hscan
        rw [hresp] at h
        have hm0 : 0 ≤ minimumDistance probe (a :: rest) :=
          minimumDistance_nonneg probe _ hne
        by_cases hthr : minimumDistance probe (a :: rest) ≤ RECOGNITION_THRESHOLD
        · rw [if_pos hthr] at h
          simp only [confidenceOf, Option.some.injEq] at h
          subst h
          have hd1 : minimumDistance probe (a :: rest) / RECOGNITION_THRESHOLD ≤ 1 :=
            (div_le_one RECOGNITION_THRESHOLD_pos).mpr hthr
          have hd0 : 0 ≤ minimumDistance probe (a :: rest) / RECOGNITION_THRESHOLD :=
            div_nonneg hm0 (le_of_lt RECOGNITION_THRESHOLD_pos)
          constructor
          · linarith
          · linarith
        · rw [if_neg hthr] at h
          simp only [confidenceOf, Option.some.injEq] at h
          subst h
          by_cases h1 : 1 < minimumDistance probe (a :: rest)
          · rw [if_pos h1]
            norm_num
          · rw [if_neg h1]
            have hle1 : minimumDistance probe (a :: rest) ≤ 1 := not_lt.mp h1
            constructor
            · linarith
            · linarith

theorem C9_confidence_bounded_witness :
    confidenceOf (recognizeHandler (some "img") (some [(0 : ℝ)])
        [("a", aliceRec)]).response = some 1 ∧
    0 ≤ (1 : ℝ) ∧ (1 : ℝ) ≤ 1 := by
  have hc : confidenceOf (recognizeHandler (some "img") (some [(0 : ℝ)])
      [("a", aliceRec)]).response = some 1 := by
    rw [recognize_demo_eval]
    rfl
  exact ⟨hc, C9_confidence_bounded (some "img") (some [(0 : ℝ)]) [("a", aliceRec)] 1 hc⟩

/-- Claim C1 fails as stated: the generated id is used without any
collision check, so a successful registration whose generated id already
occurs in the store overwrites the existing record, leaving the record
count unchanged and producing an id that is not distinct from the
existing ids. -/
theorem C1_register_collision_counterexample :
    (registerHandler (some "Alice") (some "img") (some [(0 : ℝ)]) "u1"
        (some [("u1", ⟨"Bob", [(1 : ℝ)]⟩)]) true []).response = .success "u1" "Alice" ∧
    (registerHandler (some "Alice") (some "img") (some [(0 : ℝ)]) "u1"
        (some [("u1", ⟨"Bob", [(1 : ℝ)]⟩)]) true []).memory.length
      = ([("u1", (⟨"Bob", [(1 : ℝ)]⟩ : UserRecord))] : List Entry).length ∧
    "u1" ∈ ([("u1", (⟨"Bob", [(1 : ℝ)]⟩ : UserRecord))] : List Entry).map Prod.fst := by
  rw [registerHandler_success_eq "Alice" "img" (by decide) (by decide) [(0 : ℝ)] "u1"
    (some [("u1", ⟨"Bob", [(1 : ℝ)]⟩)]) true []]
  refine ⟨rfl, ?_, by simp⟩
  simp [setKey]

/-- Claim C1 (amended): a successful registration whose generated id does
not already occur among the stored ids grows the store by exactly one
record, and the new id is distinct from every id already present.  (The
code neither rejects nor regenerates a colliding id; when the id
collides, the existing record is overwritten instead — see the
counterexample.) -/
theorem C1_register_fresh_id (nm img : String) (hn : nm ≠ "") (hi : img ≠ "")
    (desc : Descriptor) (userId : String) (fileUsers : List Entry) (writeOk : Bool)
    (memory : List Entry) (hfresh : userId ∉ fileUsers.map Prod.fst) :
    (registerHandler (some nm) (some img) (some desc) userId (some fileUsers) writeOk
        memory).response = .success userId nm ∧
    (registerHandler (some nm) (some img) (some desc) userId (some fileUsers) writeOk
        memory).memory.length = fileUsers.length + 1 ∧
    ∀ k ∈ fileUsers.map Prod.fst, userId ≠ k := by
  rw [registerHandler_success_eq nm img hn hi desc userId (some fileUsers) writeOk memory]
  refine ⟨rfl, ?_, ?_⟩
  · exact setKey_length_of_not_mem fileUsers userId ⟨nm, desc⟩ hfresh
  · intro k hk hkeq
    exact hfresh (by rw [hkeq]; exact hk)

theorem C1_register_fresh_id_witness :
    (registerHandler (some "Alice") (some "img") (some [(0 : ℝ)]) "u2"
        (some [("u1", ⟨"Bob", [(1 : ℝ)]⟩)]) true []).response = .success "u2" "Alice" ∧
    (registerHandler (some "Alice") (some "img") (some [(0 : ℝ)]) "u2"
        (some [("u1", ⟨"Bob", [(1 : ℝ)]⟩)]) true []).memory.length
      = ([("u1", (⟨"Bob", [(1 : ℝ)]⟩ : UserRecord))] : List Entry).length + 1 ∧
    ∀ k ∈ ([("u1", (⟨"Bob", [(1 : ℝ)]⟩ : UserRecord))] : List Entry).map Prod.fst,
      "u2" ≠ k :=
  C1_register_fresh_id "Alice" "img" (by decide) (by decide) [(0 : ℝ)] "u2"
    [("u1", ⟨"Bob", [(1 : ℝ)]⟩)] true [] (by simp)

/-- Claim C8: when the durable write fails during a registration that
already passed validation and face detection, the in-memory mapping still
receives the new record — the mutation is not rolled back — the durable
content is left as it was, and the call still returns success. -/
theorem C8_write_failure_no_rollback (nm img : String) (hn : nm ≠ "") (hi : img ≠ "")
    (desc : Descriptor) (userId : String) (fileUsers : Option (List Entry))
    (memory : List Entry) :
    (registerHandler (some nm) (some img) (some desc) userId fileUsers false
        memory).response = .success userId nm ∧
    (userId, (⟨nm, desc⟩ : UserRecord)) ∈ (registerHandler (some nm) (some img)
        (some desc) userId fileUsers false memory).memory ∧
    (registerHandler (some nm) (some img) (some desc) userId fileUsers false
        memory).durable = fileUsers := by
  rw [registerHandler_success_eq nm img hn hi desc userId fileUsers false memory]
  exact ⟨rfl, setKey_mem_self _ _ _, rfl⟩

theorem C8_write_failure_no_rollback_witness :
    (registerHandler (some "Alice") (some "img") (some [(0 : ℝ)]) "u2"
        (some [("u1", ⟨"Bob", [(1 : ℝ)]⟩)]) false []).response = .success "u2" "Alice" ∧
    ("u2", (⟨"Alice", [(0 : ℝ)]⟩ : UserRecord)) ∈ (registerHandler (some "Alice")
        (some "img") (some [(0 : ℝ)]) "u2" (some [("u1", ⟨"Bob", [(1 : ℝ)]⟩)])
        false []).memory ∧
    (registerHandler (some "Alice") (some "img") (some [(0 : ℝ)]) "u2"
        (some [("u1", ⟨"Bob", [(1 : ℝ)]⟩)]) false []).durable
      = some [("u1", ⟨"Bob", [(1 : ℝ)]⟩)] :=
  C8_write_failure_no_rollback "Alice" "img" (by decide) (by decide) [(0 : ℝ)] "u2"
    (some [("u1", ⟨"Bob", [(1 : ℝ)]⟩)]) []

end FaceGuard
